import Mathlib

/-!
# Verification of the `wlc` Weblate API client (shallow embedding)

This file embeds the data model and operations of the `wlc` Python package
(`wlc/__init__.py`, `wlc/config.py`) into Lean 4 and proves properties of
the embedding.

Conventions of the embedding:
* JSON values are the inductive `JVal`; Python dicts are insertion-ordered
  association lists `List (String × α)` with the helpers `lookupS`,
  `setKey` (assignment keeps the position of an existing key, appends new
  keys) and `eraseKey` (`del d[k]`).
* Python exceptions are the `Except PyErr` monad; a raised exception
  abandons the local mutation of the object that raised it.
* The network is a pure function from URL to parsed JSON response; every
  operation that may talk to the network additionally returns the list of
  URLs it fetched, in order, so that "number of refreshes" is observable.
* `dateutil.parser.parse` is an external library; its successful result on
  a string `s` is modelled abstractly as the constructor `PVal.time s`.
* Recursion through nested proxy construction is layered by a `Nat` fuel
  argument (`wrapF`); running out of fuel yields the distinguished error
  `PyErr.recursionError`, so any hypothesis that a computation returned
  `.ok` already implies the fuel was sufficient.
-/

set_option autoImplicit false

namespace Wlc

/-- A JSON value, as produced by `response.json()`.  Arrays are opaque to
the client code modelled here (they are never deconstructed by
`_load_params`), objects are insertion-ordered association lists. -/
inductive JVal where
  | jnull : JVal
  | jbool : Bool → JVal
  | jnum : Int → JVal
  | jstr : String → JVal
  | jarr : List JVal → JVal
  | jobj : List (String × JVal) → JVal

/-- A JSON object / Python dict: insertion-ordered key-value list. -/
abbrev Obj := List (String × JVal)

/-- First value stored under key `k` (Python `d[k]` / `k in d`). -/
def lookupS {α : Type} : List (String × α) → String → Option α
  | [], _ => none
  | (k', v) :: rest, k => if k' = k then some v else lookupS rest k

/-- Python dict assignment `d[k] = v`: replaces the value in place when the
key exists, otherwise appends the new pair at the end. -/
def setKey {α : Type} : List (String × α) → String → α → List (String × α)
  | [], k, v => [(k, v)]
  | (k', v') :: rest, k, v =>
      if k' = k then (k, v) :: rest else (k', v') :: setKey rest k v

/-- Python `del d[k]`: removes the (first) entry with key `k`. -/
def eraseKey {α : Type} : List (String × α) → String → List (String × α)
  | [], _ => []
  | (k', v') :: rest, k =>
      if k' = k then rest else (k', v') :: eraseKey rest k

/-- The keys of an association list, in order. -/
def keysOf {α : Type} (l : List (String × α)) : List String :=
  l.map Prod.fst

/-- The entity kinds of the client: the `LazyObject` subclasses declared in
`wlc/__init__.py`. -/
inductive Kind where
  | language
  | languageStats
  | projectRepository
  | repository
  | project
  | component
  | translation
  | statistics
  | translationStatistics
  | change
  | unit
  deriving DecidableEq, Repr

/-- `Statistics.PARAMS` (shared with `TranslationStatistics`). -/
def statisticsParams : List String :=
  ["failing_percent", "translated_percent", "total_words", "failing",
   "translated_words", "fuzzy_percent", "recent_changes", "translated",
   "fuzzy", "total", "last_change", "name", "url"]

/-- The `PARAMS` tuple of each kind, transcribed from the source.  Note
that `Component.PARAMS` really lists `source_language` twice. -/
def PARAMS : Kind → List String
  | .language => ["url", "web_url", "code", "name", "direction"]
  | .languageStats =>
      ["total", "code", "translated_words", "language", "translated",
       "translated_percent", "total_words", "words_percent"]
  | .projectRepository => ["url", "needs_commit", "needs_merge", "needs_push"]
  | .repository =>
      ["url", "needs_commit", "needs_merge", "needs_push", "status",
       "merge_failure", "remote_commit"]
  | .project => ["url", "web_url", "name", "slug", "web", "source_language"]
  | .component =>
      ["url", "web_url", "name", "slug", "project", "source_language", "vcs",
       "repo", "git_export", "branch", "filemask", "template", "new_base",
       "file_format", "license", "license_url", "source_language",
       "is_glossary"]
  | .translation =>
      ["url", "web_url", "language", "component", "translated", "fuzzy",
       "total", "translated_words", "fuzzy_words", "failing_checks_words",
       "total_words", "failing_checks", "have_suggestion", "have_comment",
       "language_code", "filename", "revision", "share_url", "translate_url",
       "is_template", "translated_percent", "fuzzy_percent",
       "failing_checks_percent", "last_change", "last_author"]
  | .statistics => statisticsParams
  | .translationStatistics => statisticsParams ++ ["code", "last_author"]
  | .change =>
      ["url", "unit", "translation", "component", "timestamp", "action_name",
       "target"]
  | .unit =>
      ["approved", "content_hash", "context", "explanation", "extra_flags",
       "flags", "fuzzy", "has_comment", "has_failing_check", "has_suggestion",
       "id", "id_hash", "location", "note", "num_words", "position",
       "previous_source", "priority", "source", "source_unit", "state",
       "target", "translated", "translation", "url", "web_url"]

/-- The `OPTIONALS` set of each kind. -/
def OPTIONALS : Kind → List String
  | .project => ["source_language"]
  | .component => ["source_language", "is_glossary"]
  | _ => []

/-- The `MAPPINGS` table of each kind: schema field → nested kind. -/
def MAPPINGS : Kind → String → Option Kind
  | .project, f => if f = "source_language" then some .language else none
  | .component, f =>
      if f = "project" then some .project
      else if f = "source_language" then some .language else none
  | .translation, f =>
      if f = "language" then some .language
      else if f = "component" then some .component else none
  | .change, f =>
      if f = "translation" then some .translation
      else if f = "component" then some .component else none
  | .unit, f => if f = "translation" then some .translation else none
  | _, _ => none

/-- The module-level `TIMESTAMPS` set. -/
def TIMESTAMPS : List String := ["last_change"]

/-- The `ID` field of each kind. -/
def ID : Kind → String
  | .language => "code"
  | .languageStats => "code"
  | .project => "slug"
  | .component => "slug"
  | .translation => "language_code"
  | .change => "id"
  | .unit => "id"
  | _ => "url"

/-- Python exceptions raised by the modelled code paths.
`recursionError` is the fuel-exhaustion marker of the embedding: it is
unreachable whenever enough fuel is supplied. -/
inductive PyErr where
  | attributeError : String → PyErr
  | typeError : PyErr
  | recursionError : PyErr
  deriving DecidableEq, Repr

mutual
/-- A value stored in a proxy's `_data`: either the raw JSON value, the
parsed timestamp of a string (`dateutil.parser.parse`, modelled
abstractly), or a nested proxy built through `MAPPINGS`. -/
inductive PVal where
  | raw : JVal → PVal
  | time : String → PVal
  | nested : LazyObject → PVal

/-- The state of a `LazyObject` instance: kind (the Python class), `_url`,
`_data`, `_attribs` and `_loaded`.  The `_url` is kept as a `JVal` because
the constructor stores whatever it receives. -/
inductive LazyObject where
  | mk : Kind → JVal → List (String × PVal) → Obj → Bool → LazyObject
end

namespace LazyObject

def kind : LazyObject → Kind
  | .mk k _ _ _ _ => k

def urlv : LazyObject → JVal
  | .mk _ u _ _ _ => u

def data : LazyObject → List (String × PVal)
  | .mk _ _ d _ _ => d

def attribs : LazyObject → Obj
  | .mk _ _ _ a _ => a

def loaded : LazyObject → Bool
  | .mk _ _ _ _ l => l

end LazyObject

/-- The first loop of `_load_params`, parameterised by the value-wrapping
function `w`: iterate over the `PARAMS` tuple; every param present in the
kwargs is wrapped, assigned into `_data` and deleted from the kwargs.
Returns the updated `_data` and the left-over kwargs. -/
def loadLoop (w : Kind → String → JVal → Except PyErr PVal) (k : Kind) :
    List String → Obj → List (String × PVal) →
    Except PyErr (List (String × PVal) × Obj)
  | [], kwargs, d => .ok (d, kwargs)
  | p :: ps, kwargs, d =>
      match lookupS kwargs p with
      | some v =>
          match w k p v with
          | .ok pv => loadLoop w k ps (eraseKey kwargs p) (setKey d p pv)
          | .error e => .error e
      | none => loadLoop w k ps kwargs d

/-- `_load_params(**kwargs)` parameterised by the wrapping function `w`:
the first loop consumes recognised params into `_data`, the trailing loop
writes the left-over kwargs into `_attribs`. -/
def loadParamsW (w : Kind → String → JVal → Except PyErr PVal) (k : Kind)
    (kwargs : Obj) (d : List (String × PVal)) (a : Obj) :
    Except PyErr (List (String × PVal) × Obj) :=
  match loadLoop w k (PARAMS k) kwargs d with
  | .ok (d', leftover) => .ok (d', leftover.foldl (fun acc kv => setKey acc kv.1 kv.2) a)
  | .error e => .error e

/-- `LazyObject.__init__(weblate, url, **kwargs)` parameterised by the
wrapping function: starts from empty `_data`/`_attribs`, runs
`_load_params(**kwargs)` and then `_load_params(url=url)`; `_loaded` is
false. -/
def initW (w : Kind → String → JVal → Except PyErr PVal) (k : Kind)
    (uv : JVal) (kwargs : Obj) : Except PyErr LazyObject :=
  match loadParamsW w k kwargs [] [] with
  | .ok (d1, a1) =>
      match loadParamsW w k [("url", uv)] d1 a1 with
      | .ok (d2, a2) => .ok (.mk k uv d2 a2 false)
      | .error e => .error e
  | .error e => .error e

/-- The per-value body of `_load_params`, parameterised by the function
used to build nested proxies one level down:

* a non-null value of a field in `MAPPINGS` becomes a nested proxy — from
  the URL when the value is a string (`MAPPINGS[param](weblate, url=value)`),
  from the expanded object when it is a dict
  (`MAPPINGS[param](weblate, **value)`, which requires a `url` entry and
  passes the rest as kwargs); any other non-null value is a `TypeError`;
* a non-null value of a field in `TIMESTAMPS` is parsed
  (`dateutil.parser.parse`, a `TypeError` on non-strings);
* anything else (including `None`) is stored raw. -/
def wrapBody (rec : Kind → String → JVal → Except PyErr PVal) (k : Kind)
    (param : String) (v : JVal) : Except PyErr PVal :=
  match MAPPINGS k param with
  | some k' =>
      match v with
      | .jnull => .ok (.raw .jnull)
      | .jstr s => (initW rec k' (.jstr s) []).map .nested
      | .jobj o =>
          match lookupS o "url" with
          | some uv => (initW rec k' uv (eraseKey o "url")).map .nested
          | none => .error .typeError
      | _ => .error .typeError
  | none =>
      if TIMESTAMPS.contains param then
        match v with
        | .jnull => .ok (.raw .jnull)
        | .jstr s => .ok (.time s)
        | _ => .error .typeError
      else .ok (.raw v)

/-- The value-wrapping function at a given nesting depth. -/
def wrapF : Nat → Kind → String → JVal → Except PyErr PVal
  | 0, _, _, _ => .error .recursionError
  | fuel + 1, k, param, v => wrapBody (wrapF fuel) k param v

/-- `_load_params(**kwargs)` at a given nesting depth, updating the given
`_data` and `_attribs`. -/
def load_params (fuel : Nat) (k : Kind) (kwargs : Obj)
    (d : List (String × PVal)) (a : Obj) :
    Except PyErr (List (String × PVal) × Obj) :=
  loadParamsW (wrapF fuel) k kwargs d a

/-- `LazyObject.__init__`: construct a proxy of kind `k` from positional
`url` and keyword payload `kwargs`. -/
def initProx (fuel : Nat) (k : Kind) (uv : JVal) (kwargs : Obj) :
    Except PyErr LazyObject :=
  initW (wrapF fuel) k uv kwargs

/-- `MAPPINGS[param](weblate, url=value)` / `Component(weblate, url)`:
a proxy holding only its URL. -/
def mkFromUrl (fuel : Nat) (k : Kind) (u : String) : Except PyErr LazyObject :=
  initProx fuel k (.jstr u) []

/-- `parser(weblate=self, **data)`: a proxy constructed from a full JSON
object, whose `url` entry provides the positional `url` argument (missing
`url` is a `TypeError`). -/
def mkFromObj (fuel : Nat) (k : Kind) (o : Obj) : Except PyErr LazyObject :=
  match lookupS o "url" with
  | some uv => initProx fuel k uv (eraseKey o "url")
  | none => .error .typeError

/-- The network: a map from URL to the parsed JSON object of the response
(`_load_params(**data)` requires the response to be an object). -/
abbrev Server := String → Obj

namespace LazyObject

/-- `refresh()`: one GET of `_url`, merge the response through
`_load_params`, set `_loaded`.  The returned list is the fetch log.  A
non-string `_url` fails inside `requests` before any fetch. -/
def refresh (fuel : Nat) (S : Server) (p : LazyObject) :
    Except PyErr LazyObject × List String :=
  match p.urlv with
  | .jstr u =>
      match load_params fuel p.kind (S u) p.data p.attribs with
      | .ok (d, a) => (.ok (.mk p.kind p.urlv d a true), [u])
      | .error e => (.error e, [u])
  | _ => (.error .typeError, [])

/-- `__getattr__(name)`: fail on non-schema names; return the cached value
when present; otherwise refresh (unconditionally — `_loaded` is *not*
consulted) and retry, turning a still-missing key into `AttributeError`.
The proxy after the call is returned alongside the result. -/
def getattr (fuel : Nat) (S : Server) (p : LazyObject) (name : String) :
    (Except PyErr PVal × LazyObject) × List String :=
  if (PARAMS p.kind).contains name = false then
    ((.error (.attributeError name), p), [])
  else
    match lookupS p.data name with
    | some v => ((.ok v, p), [])
    | none =>
        match refresh fuel S p with
        | (.ok p', log) =>
            match lookupS p'.data name with
            | some v => ((.ok v, p'), log)
            | none => ((.error (.attributeError name), p'), log)
        | (.error e, log) => ((.error e, p), log)

/-- `ensure_loaded(attrib)`: no-op when the attribute is already known or
the object is loaded; otherwise refresh. -/
def ensure_loaded (fuel : Nat) (S : Server) (p : LazyObject) (attrib : String) :
    Except PyErr LazyObject × List String :=
  if (lookupS p.data attrib).isSome || (lookupS p.attribs attrib).isSome then
    (.ok p, [])
  else if p.loaded = false then refresh fuel S p
  else (.ok p, [])

/-- The field names `keys()` yields once the optional refresh has been
done: every `PARAMS` entry that is not optional or is present in `_data`,
in `PARAMS` order. -/
def keysList (p : LazyObject) : List String :=
  (PARAMS p.kind).filter fun q =>
    !((OPTIONALS p.kind).contains q) || (lookupS p.data q).isSome

/-- `keys()`: refresh when `_data` holds at most one entry (there is
always at least the url), then yield `keysList`. -/
def keys (fuel : Nat) (S : Server) (p : LazyObject) :
    Except PyErr (List String × LazyObject) × List String :=
  if p.data.length ≤ 1 then
    match refresh fuel S p with
    | (.ok p', log) => (.ok (keysList p', p'), log)
    | (.error e, log) => (.error e, log)
  else (.ok (keysList p, p), [])

/-- The loop of `items()`: read each yielded key through `__getattr__`,
threading the proxy and the fetch log. -/
def itemsLoop (fuel : Nat) (S : Server) :
    List String → LazyObject → List (String × PVal) → List String →
    Except PyErr (List (String × PVal) × LazyObject) × List String
  | [], p, acc, log => (.ok (acc, p), log)
  | q :: qs, p, acc, log =>
      match getattr fuel S p q with
      | ((.ok v, p'), l) => itemsLoop fuel S qs p' (acc ++ [(q, v)]) (log ++ l)
      | ((.error e, _), l) => (.error e, log ++ l)

/-- `items()`: iterate over `keys()` and read each one. -/
def items (fuel : Nat) (S : Server) (p : LazyObject) :
    Except PyErr (List (String × PVal) × LazyObject) × List String :=
  match keys fuel S p with
  | (.ok (ks, p'), log) => itemsLoop fuel S ks p' [] log
  | (.error e, log) => (.error e, log)

end LazyObject

/-! ## The `Weblate` facade -/

/-- Characters allowed in a URL scheme after the initial letter
(`urllib.parse`). -/
def isSchemeChar (c : Char) : Bool :=
  c.isAlphanum || c == '+' || c == '-' || c == '.'

/-- Split a character list at the first `':'`, if any. -/
def splitAtColon : List Char → Option (List Char × List Char)
  | [] => none
  | c :: rest =>
      if c = ':' then some ([], rest)
      else (splitAtColon rest).map fun pr => (c :: pr.1, pr.2)

/-- The `(scheme, netloc)` part of `urllib.parse.urlparse`: the scheme is
the lowercased text before the first `':'` when it is a non-empty run of
scheme characters starting with a letter; the netloc follows a leading
`"//"` of the remainder and extends to the next `'/'`, `'?'` or `'#'`. -/
def pyUrlparse (s : String) : String × String :=
  let cs := s.toList
  let schemeRest : List Char × List Char :=
    match splitAtColon cs with
    | some (c :: pre, post) =>
        if c.isAlpha && (c :: pre).all isSchemeChar then
          ((c :: pre).map Char.toLower, post)
        else ([], cs)
    | _ => ([], cs)
  let netloc : List Char :=
    match schemeRest.2 with
    | '/' :: '/' :: tail => tail.takeWhile fun c => c ≠ '/' ∧ c ≠ '?' ∧ c ≠ '#'
    | _ => []
  (String.mk schemeRest.1, String.mk netloc)

/-- `str.startswith`. -/
def startsWithS (s pre : String) : Bool :=
  pre.toList.isPrefixOf s.toList

def LOCALHOST_NETLOC : String := "127.0.0.1"

namespace Weblate

/-- `Weblate._should_verify_ssl`: verify exactly when the scheme is
`https` and the netloc does not start with `LOCALHOST_NETLOC`. -/
def should_verify_ssl (path : String) : Bool :=
  let url := pyUrlparse path
  let is_localhost := startsWithS url.2 LOCALHOST_NETLOC
  url.1 == "https" && !is_localhost

end Weblate

/-- Python whitespace stripped by `int(str)`. -/
def isPyWs (c : Char) : Bool :=
  c = ' ' || c = '\t' || c = '\n' || c = '\r' || c = '\x0b' || c = '\x0c'

/-- After the first digit, `int()` accepts digits with single underscores
strictly between digits. -/
def pyIntDigitsRest : List Char → Bool
  | [] => true
  | '_' :: c :: rest => c.isDigit && pyIntDigitsRest rest
  | ['_'] => false
  | c :: rest => c.isDigit && pyIntDigitsRest rest

/-- A non-empty digit run with optional single underscores between
digits. -/
def pyIntDigits : List Char → Bool
  | [] => false
  | c :: rest => c.isDigit && pyIntDigitsRest rest

/-- Whether Python's `int(s)` succeeds: optional surrounding whitespace,
optional sign, then digits (with underscores between digits). -/
def pyIntParsable (s : String) : Bool :=
  let cs := ((s.toList.dropWhile isPyWs).reverse.dropWhile isPyWs).reverse
  match cs with
  | '+' :: rest => pyIntDigits rest
  | '-' :: rest => pyIntDigits rest
  | rest => pyIntDigits rest

/-- Python `s.strip(c)` for a single strip character. -/
def stripChar (s : String) (c : Char) : String :=
  String.mk (((s.toList.dropWhile (· = c)).reverse.dropWhile (· = c)).reverse)

/-- The loop of `str.split(sep)` for a one-character separator. -/
def splitCharAux (c : Char) : List Char → List Char → List String
  | [], acc => [String.mk acc.reverse]
  | d :: rest, acc =>
      if d = c then String.mk acc.reverse :: splitCharAux c rest []
      else splitCharAux c rest (d :: acc)

/-- Python `s.split(c)` for a one-character separator: `""` yields
`[""]`, adjacent separators yield empty segments. -/
def splitChar (s : String) (c : Char) : List String :=
  splitCharAux c s.toList []

/-- The object reference returned by `Weblate.get_object`, or the
`ValueError` it raises on unsupported paths. -/
inductive PathObject where
  | unitR (path : String)
  | translationR (path : String)
  | componentR (path : String)
  | projectR (path : String)
  | valueError (path : String)
  deriving DecidableEq, Repr

namespace Weblate

/-- `Weblate.get_object(path)`: try `int(path)` on the *raw* path first
(→ unit); otherwise dispatch on the number of `/`-separated segments of
the slash-stripped path: 3 → translation, 2 → component, 1 → project,
anything else raises `ValueError`. -/
def get_object (path : String) : PathObject :=
  let parts := splitChar (stripChar path '/') '/'
  if pyIntParsable path then .unitR path
  else if parts.length = 3 then .translationR path
  else if parts.length = 2 then .componentR path
  else if parts.length = 1 then .projectR path
  else .valueError path

/-- A POST issued through `Weblate.post`: target path, multipart file
entries and remaining payload. -/
structure PostRequest where
  path : String
  files : Obj
  data : Obj

/-- The required fields of `Weblate.create_component`. -/
def required_keys : List String :=
  ["name", "slug", "file_format", "filemask", "repo"]

/-- The multipart entries popped out of the kwargs by
`create_component`'s first loop (`docfile` then `zipfile`). -/
def popped_files (kwargs : Obj) : Obj :=
  ["docfile", "zipfile"].filterMap fun a =>
    (lookupS kwargs a).map fun v => (a, v)

/-- The kwargs left after `create_component` pops the file fields. -/
def popped_kwargs (kwargs : Obj) : Obj :=
  ["docfile", "zipfile"].foldl (fun acc a => eraseKey acc a) kwargs

/-- `Weblate.create_component(project, **kwargs)`: pop `docfile`/`zipfile`
into the multipart files, then raise `WeblateException("<key> is
required.")` for the first missing required field, else POST the remaining
kwargs to `projects/<project>/components/`.  The second component is the
list of requests actually issued (empty when validation fails). -/
def create_component (project : String) (kwargs : Obj) :
    Except String PostRequest × List PostRequest :=
  let rest := popped_kwargs kwargs
  match required_keys.find? (fun key => (lookupS rest key).isNone) with
  | some key => (.error (key ++ " is required."), [])
  | none =>
      let req : PostRequest :=
        ⟨"projects/" ++ project ++ "/components/", popped_files kwargs, rest⟩
      (.ok req, [req])

/-- One page of a paginated listing endpoint: the `results` array and the
`next` link. -/
structure Page where
  results : List Obj
  next : Option String

/-- `Weblate.list_factory(path, parser)`: while the path is not `None`,
GET it, yield `parser(weblate=self, **item)` for every item of `results`,
and continue with `next`.  The fuel bounds the number of pages followed
(the Python generator simply does not terminate on an infinite chain);
the second component is the fetch log. -/
def list_factory {α : Type} (S : String → Page) (parser : Obj → α) :
    Nat → Option String → List α × List String
  | _, none => ([], [])
  | 0, some _ => ([], [])
  | fuel + 1, some path =>
      let page := S path
      let rest := list_factory S parser fuel page.next
      (page.results.map parser ++ rest.1, path :: rest.2)

end Weblate

/-! ## `wlc/config.py` -/

def API_URL : String := "http://127.0.0.1:8000/api/"

/-- The state of a `WeblateConfig`: the entries of the selected main
section and of the `[keys]` section.  Only the string-valued entries used
by `get_url_key` are modelled. -/
structure WeblateConfig where
  main : List (String × String)
  keys : List (String × String)

namespace WeblateConfig

/-- `WeblateConfig.set_defaults` as far as `get_url_key` is concerned:
`key` defaults to the empty string, `url` to `API_URL`; the `[keys]`
section starts empty. -/
def set_defaults : WeblateConfig :=
  ⟨[("key", ""), ("url", API_URL)], []⟩

/-- Reading a configuration file on top of an existing state: each parsed
entry is assigned into its section. -/
def read (cfg : WeblateConfig) (mainEntries keysEntries : List (String × String)) :
    WeblateConfig :=
  ⟨mainEntries.foldl (fun acc kv => setKey acc kv.1 kv.2) cfg.main,
   keysEntries.foldl (fun acc kv => setKey acc kv.1 kv.2) cfg.keys⟩

/-- `WeblateConfig.get_url_key`: take `url` and `key` from the main
section; when `key` is falsy (empty), fall back to the `[keys]` section
keyed by the URL, defaulting to the empty string when that option is
missing (`NoOptionError`). -/
def get_url_key (cfg : WeblateConfig) : String × String :=
  let url := (lookupS cfg.main "url").getD ""
  let key := (lookupS cfg.main "key").getD ""
  if key = "" then (url, (lookupS cfg.keys url).getD "") else (url, key)

end WeblateConfig

/-! ## Auxiliary notions used by the statements -/

namespace Weblate

/-- A finite server-side page chain starting at a path: every page links
to the next one and the last page has `next: null`. -/
inductive Chain (S : String → Page) : String → List String → Prop where
  | last {p : String} : (S p).next = none → Chain S p [p]
  | more {p q : String} {rest : List String} :
      (S p).next = some q → Chain S q rest → Chain S p (p :: rest)

/-- Consuming the listing twice: each call to `list_factory` restarts the
generator, so the items and the fetch log of both consumptions are
concatenated. -/
def consume_twice {α : Type} (S : String → Page) (parser : Obj → α)
    (fuel : Nat) (start : Option String) : List α × List String :=
  let r1 := list_factory S parser fuel start
  let r2 := list_factory S parser fuel start
  (r1.1 ++ r2.1, r1.2 ++ r2.2)

end Weblate

/-- Modelled from the spec (refinement reference for the TLS claim): skip
certificate verification exactly when the scheme is `https` and the
network location is the loopback address itself. -/
def specSkipVerification (path : String) : Bool :=
  let url := pyUrlparse path
  url.1 == "https" && url.2 == "127.0.0.1"

/-! ## Concrete scenario data for witnesses and counterexamples -/

/-- A server response for a Component at url `"c"` that omits the
optional fields `source_language` and `is_glossary`. -/
def componentNoGlossary : Obj :=
  [("url", .jstr "c"), ("name", .jstr "W"), ("slug", .jstr "w"),
   ("web_url", .jstr "h"), ("repository_url", .jstr "r")]

/-- A server holding `componentNoGlossary` at `"c"`. -/
def serverNoGlossary : Server := fun u =>
  if u = "c" then componentNoGlossary else []

/-- A server response for a Component at url `"c"` that does carry
`is_glossary`. -/
def componentWithGlossary : Obj :=
  [("url", .jstr "c"), ("name", .jstr "W"), ("slug", .jstr "w"),
   ("is_glossary", .jbool true)]

/-- A server holding `componentWithGlossary` at `"c"`. -/
def serverWithGlossary : Server := fun u =>
  if u = "c" then componentWithGlossary else []

/-- An inline Component payload at url `"C"` whose `project` field is a
bare URL string (so the nested-wrapping rule applies recursively inside
it). -/
def componentInline : Obj :=
  [("url", .jstr "C"), ("name", .jstr "W"), ("slug", .jstr "w"),
   ("project", .jstr "P")]

/-- A server holding `componentInline` at `"C"`. -/
def serverInline : Server := fun u =>
  if u = "C" then componentInline else []

/-- A three-page listing: pages 1 and 2 carry a `next` link, page 3 has
`next: null`. -/
def threePages : String → Weblate.Page := fun u =>
  if u = "p1" then ⟨[[("url", .jstr "u1")], [("url", .jstr "u2")]], some "p2"⟩
  else if u = "p2" then ⟨[[("url", .jstr "u3")]], some "p3"⟩
  else if u = "p3" then ⟨[[("url", .jstr "u4")]], none⟩
  else ⟨[], none⟩

/-- The empty nested proxy built for a Translation's `component` field
given as the bare URL string `"C"`. -/
def c7E0 : LazyObject :=
  .mk .component (.jstr "C") [("url", .raw (.jstr "C"))] [] false

/-- The nested proxy built for the `project` field of `componentInline`
(a bare URL string, wrapped recursively). -/
def c7proj : LazyObject :=
  .mk .project (.jstr "P") [("url", .raw (.jstr "P"))] [] false

/-- The populated nested proxy built for a Translation's `component`
field given inline as `componentInline`. -/
def c7I0 : LazyObject :=
  .mk .component (.jstr "C")
    [("name", .raw (.jstr "W")), ("slug", .raw (.jstr "w")),
     ("project", .nested c7proj), ("url", .raw (.jstr "C"))] [] false

/-- `c7E0` after a refresh against `serverInline`. -/
def c7E1 : LazyObject :=
  .mk .component (.jstr "C")
    [("url", .raw (.jstr "C")), ("name", .raw (.jstr "W")),
     ("slug", .raw (.jstr "w")), ("project", .nested c7proj)] [] true

/-- `c7I0` after a refresh against `serverInline`. -/
def c7I1 : LazyObject :=
  .mk .component (.jstr "C")
    [("name", .raw (.jstr "W")), ("slug", .raw (.jstr "w")),
     ("project", .nested c7proj), ("url", .raw (.jstr "C"))] [] true

/-- A minimal Component proxy: only the url `"c"` is known. -/
def c1p0 : LazyObject :=
  .mk .component (.jstr "c") [("url", .raw (.jstr "c"))] [] false

/-- `c1p0` after one refresh against `serverNoGlossary` (which omits the
optional `is_glossary`): loaded, with `repository_url` in `_attribs`. -/
def c1p1 : LazyObject :=
  .mk .component (.jstr "c")
    [("url", .raw (.jstr "c")), ("web_url", .raw (.jstr "h")),
     ("name", .raw (.jstr "W")), ("slug", .raw (.jstr "w"))]
    [("repository_url", .jstr "r")] true

/-- An unloaded Component proxy that already knows two fields, so that
`keys()` sees `len(_data) > 1`. -/
def c4p : LazyObject :=
  .mk .component (.jstr "c")
    [("name", .raw (.jstr "W")), ("url", .raw (.jstr "c"))] [] false

/-- The field names `keys()` yields for a Component whose `_data` lacks
both optional fields. -/
def componentKeysNoOptionals : List String :=
  ["url", "web_url", "name", "slug", "project", "vcs", "repo", "git_export",
   "branch", "filemask", "template", "new_base", "file_format", "license",
   "license_url"]

/-- `create_component` kwargs with a docfile but no `repo`. -/
def c9missing : Obj :=
  [("docfile", .jstr "POT"), ("name", .jstr "c"), ("slug", .jstr "c"),
   ("file_format", .jstr "po"), ("filemask", .jstr "po/w/*.po")]

/-- `create_component` kwargs with all required fields and a docfile. -/
def c9full : Obj :=
  [("docfile", .jstr "POT"), ("name", .jstr "c"), ("slug", .jstr "c"),
   ("file_format", .jstr "po"), ("filemask", .jstr "po/w/*.po"),
   ("repo", .jstr "local:")]

/-! ## Association-list lemmas -/

theorem lookupS_setKey_self {α : Type} (l : List (String × α)) (k : String) (v : α) :
    lookupS (setKey l k v) k = some v := by
  induction l with
  | nil => simp [setKey, lookupS]
  | cons kv rest ih =>
      obtain ⟨k', v'⟩ := kv
      by_cases h : k' = k
      · simp [setKey, h, lookupS]
      · simp [setKey, h, lookupS, ih]

theorem lookupS_setKey_ne {α : Type} (l : List (String × α)) {k q : String}
    (v : α) (h : q ≠ k) : lookupS (setKey l k v) q = lookupS l q := by
  induction l with
  | nil => simp [setKey, lookupS, Ne.symm h]
  | cons kv rest ih =>
      obtain ⟨k', v'⟩ := kv
      by_cases hk : k' = k
      · subst hk
        simp [setKey, lookupS, h, Ne.symm h]
      · by_cases hq : k' = q <;> simp [setKey, hk, lookupS, hq, ih, h]

theorem lookupS_eraseKey_ne {α : Type} (l : List (String × α)) {k q : String}
    (h : q ≠ k) : lookupS (eraseKey l k) q = lookupS l q := by
  induction l with
  | nil => simp [eraseKey]
  | cons kv rest ih =>
      obtain ⟨k', v'⟩ := kv
      by_cases hk : k' = k
      · subst hk
        simp [eraseKey, lookupS, Ne.symm h]
      · by_cases hq : k' = q <;> simp [eraseKey, hk, lookupS, hq, ih, h]

theorem lookupS_eq_none_of_not_mem {α : Type} {l : List (String × α)} {k : String}
    (h : k ∉ keysOf l) : lookupS l k = none := by
  induction l with
  | nil => rfl
  | cons kv rest ih =>
      obtain ⟨k', v'⟩ := kv
      simp only [keysOf, List.map_cons, List.mem_cons] at h
      push_neg at h
      simp [lookupS, Ne.symm h.1, ih (by simpa [keysOf] using h.2)]

theorem eraseKey_sublist {α : Type} (l : List (String × α)) (k : String) :
    (eraseKey l k).Sublist l := by
  induction l with
  | nil => simp [eraseKey]
  | cons kv rest ih =>
      obtain ⟨k', v'⟩ := kv
      by_cases hk : k' = k
      · simp [eraseKey, hk]
      · simpa [eraseKey, hk] using ih.cons₂ (k', v')

theorem nodup_keysOf_eraseKey {α : Type} {l : List (String × α)} {k : String}
    (h : (keysOf l).Nodup) : (keysOf (eraseKey l k)).Nodup :=
  ((eraseKey_sublist l k).map Prod.fst).nodup h

theorem lookupS_eraseKey_self {α : Type} {l : List (String × α)} {k : String}
    (h : (keysOf l).Nodup) : lookupS (eraseKey l k) k = none := by
  induction l with
  | nil => rfl
  | cons kv rest ih =>
      obtain ⟨k', v'⟩ := kv
      simp only [keysOf, List.map_cons, List.nodup_cons] at h
      by_cases hk : k' = k
      · subst hk
        simp only [eraseKey, if_pos rfl]
        exact lookupS_eq_none_of_not_mem h.1
      · simp [eraseKey, hk, lookupS, ih h.2]

theorem lookupS_foldl_setKey {α : Type} (entries : List (String × α))
    (a : List (String × α)) (q : String) (hnd : (keysOf entries).Nodup) :
    lookupS (entries.foldl (fun acc kv => setKey acc kv.1 kv.2) a) q
      = (lookupS entries q).or (lookupS a q) := by
  induction entries generalizing a with
  | nil => simp [lookupS]
  | cons kv rest ih =>
      obtain ⟨k, v⟩ := kv
      simp only [keysOf, List.map_cons, List.nodup_cons] at hnd
      simp only [List.foldl_cons]
      by_cases hq : k = q
      · subst hq
        rw [ih _ hnd.2,
          lookupS_eq_none_of_not_mem (by simpa [keysOf] using hnd.1)]
        simp [lookupS, lookupS_setKey_self]
      · rw [ih _ hnd.2, lookupS_setKey_ne _ v (Ne.symm hq)]
        simp [lookupS, hq]

/-! ## Characterisation of `_load_params` -/

theorem loadLoop_nil_kwargs (w : Kind → String → JVal → Except PyErr PVal)
    (k : Kind) (params : List String) (d : List (String × PVal)) :
    loadLoop w k params [] d = .ok (d, []) := by
  induction params with
  | nil => rfl
  | cons p ps ih => simp [loadLoop, lookupS, ih]

theorem loadLoop_lookup_preserved
    {w : Kind → String → JVal → Except PyErr PVal} {k : Kind}
    {params : List String} {kwargs : Obj} {d d' : List (String × PVal)}
    {leftover : Obj} (h : loadLoop w k params kwargs d = .ok (d', leftover))
    {q : String} (hq : q ∉ params ∨ lookupS kwargs q = none) :
    lookupS d' q = lookupS d q := by
  induction params generalizing kwargs d with
  | nil =>
      simp only [loadLoop, Except.ok.injEq, Prod.mk.injEq] at h
      rw [h.1]
  | cons p ps ih =>
      simp only [loadLoop] at h
      split at h
      next v hm =>
        split at h
        next pv hw =>
          have hqp : q ≠ p := by
            rcases hq with hq | hq
            · exact fun he => hq (he ▸ List.mem_cons_self _ _)
            · exact fun he => by rw [he, hm] at hq; exact absurd hq (by simp)
          have hq' : q ∉ ps ∨ lookupS (eraseKey kwargs p) q = none := by
            rcases hq with hq | hq
            · exact Or.inl fun hc => hq (List.mem_cons_of_mem _ hc)
            · exact Or.inr (by rw [lookupS_eraseKey_ne _ hqp]; exact hq)
          rw [ih h hq', lookupS_setKey_ne _ pv hqp]
        next e hw => exact absurd h (by simp)
      next hm =>
        exact ih h (hq.imp (fun hn => fun hc => hn (List.mem_cons_of_mem _ hc)) id)

theorem loadLoop_wrap_ok
    {w : Kind → String → JVal → Except PyErr PVal} {k : Kind}
    {params : List String} {kwargs : Obj} {d d' : List (String × PVal)}
    {leftover : Obj} (h : loadLoop w k params kwargs d = .ok (d', leftover))
    (hnd : (keysOf kwargs).Nodup) {q : String} {v : JVal}
    (hq : q ∈ params) (hv : lookupS kwargs q = some v) :
    ∃ pv, w k q v = .ok pv ∧ lookupS d' q = some pv := by
  induction params generalizing kwargs d with
  | nil => exact absurd hq (by simp)
  | cons p ps ih =>
      simp only [loadLoop] at h
      split at h
      next v' hm =>
        split at h
        next pv hw =>
          by_cases hqp : q = p
          · subst hqp
            rw [hv] at hm
            cases hm
            refine ⟨pv, hw, ?_⟩
            rw [loadLoop_lookup_preserved h
                (Or.inr (lookupS_eraseKey_self hnd)),
              lookupS_setKey_self]
          · have hq' : q ∈ ps := by
              rcases List.mem_cons.mp hq with h' | h'
              · exact absurd h' hqp
              · exact h'
            exact ih h (nodup_keysOf_eraseKey hnd) hq'
              (by rw [lookupS_eraseKey_ne _ hqp]; exact hv)
        next e hw => exact absurd h (by simp)
      next hm =>
        have hqp : q ≠ p := fun he => by
          rw [he, hm] at hv; exact absurd hv (by simp)
        have hq' : q ∈ ps := by
          rcases List.mem_cons.mp hq with h' | h'
          · exact absurd h' hqp
          · exact h'
        exact ih h hnd hq' hv

theorem loadLoop_leftover_none
    {w : Kind → String → JVal → Except PyErr PVal} {k : Kind}
    {params : List String} {kwargs : Obj} {d d' : List (String × PVal)}
    {leftover : Obj} (h : loadLoop w k params kwargs d = .ok (d', leftover))
    {q : String} (hv : lookupS kwargs q = none) : lookupS leftover q = none := by
  induction params generalizing kwargs d with
  | nil =>
      simp only [loadLoop, Except.ok.injEq, Prod.mk.injEq] at h
      rw [← h.2]; exact hv
  | cons p ps ih =>
      simp only [loadLoop] at h
      split at h
      next v' hm =>
        split at h
        next pv hw =>
          have hqp : q ≠ p := fun he => by
            rw [he, hm] at hv; exact absurd hv (by simp)
          exact ih h (by rw [lookupS_eraseKey_ne _ hqp]; exact hv)
        next e hw => exact absurd h (by simp)
      next hm => exact ih h hv

theorem loadLoop_leftover_param
    {w : Kind → String → JVal → Except PyErr PVal} {k : Kind}
    {params : List String} {kwargs : Obj} {d d' : List (String × PVal)}
    {leftover : Obj} (h : loadLoop w k params kwargs d = .ok (d', leftover))
    (hnd : (keysOf kwargs).Nodup) {q : String} (hq : q ∈ params) :
    lookupS leftover q = none := by
  induction params generalizing kwargs d with
  | nil => exact absurd hq (by simp)
  | cons p ps ih =>
      simp only [loadLoop] at h
      split at h
      next v' hm =>
        split at h
        next pv hw =>
          rcases List.mem_cons.mp hq with h' | h'
          · subst h'
            exact loadLoop_leftover_none h (lookupS_eraseKey_self hnd)
          · exact ih h (nodup_keysOf_eraseKey hnd) h'
        next e hw => exact absurd h (by simp)
      next hm =>
        rcases List.mem_cons.mp hq with h' | h'
        · exact loadLoop_leftover_none h (h' ▸ hm)
        · exact ih h hnd h'

theorem loadLoop_leftover_not_param
    {w : Kind → String → JVal → Except PyErr PVal} {k : Kind}
    {params : List String} {kwargs : Obj} {d d' : List (String × PVal)}
    {leftover : Obj} (h : loadLoop w k params kwargs d = .ok (d', leftover))
    {q : String} (hq : q ∉ params) :
    lookupS leftover q = lookupS kwargs q := by
  induction params generalizing kwargs d with
  | nil =>
      simp only [loadLoop, Except.ok.injEq, Prod.mk.injEq] at h
      rw [← h.2]
  | cons p ps ih =>
      simp only [loadLoop] at h
      have hqp : q ≠ p := fun he => hq (he ▸ List.mem_cons_self _ _)
      have hq' : q ∉ ps := fun hc => hq (List.mem_cons_of_mem _ hc)
      split at h
      next v' hm =>
        split at h
        next pv hw => rw [ih h hq', lookupS_eraseKey_ne _ hqp]
        next e hw => exact absurd h (by simp)
      next hm => exact ih h hq'

theorem loadLoop_leftover_sublist
    {w : Kind → String → JVal → Except PyErr PVal} {k : Kind}
    {params : List String} {kwargs : Obj} {d d' : List (String × PVal)}
    {leftover : Obj} (h : loadLoop w k params kwargs d = .ok (d', leftover)) :
    leftover.Sublist kwargs := by
  induction params generalizing kwargs d with
  | nil =>
      simp only [loadLoop, Except.ok.injEq, Prod.mk.injEq] at h
      rw [← h.2]
  | cons p ps ih =>
      simp only [loadLoop] at h
      split at h
      next v' hm =>
        split at h
        next pv hw => exact (ih h).trans (eraseKey_sublist _ _)
        next e hw => exact absurd h (by simp)
      next hm => exact ih h

theorem loadParamsW_ok
    {w : Kind → String → JVal → Except PyErr PVal} {k : Kind} {kwargs : Obj}
    {d d' : List (String × PVal)} {a a' : Obj}
    (h : loadParamsW w k kwargs d a = .ok (d', a')) :
    ∃ leftover, loadLoop w k (PARAMS k) kwargs d = .ok (d', leftover) ∧
      a' = leftover.foldl (fun acc kv => setKey acc kv.1 kv.2) a := by
  unfold loadParamsW at h
  split at h
  next d'' leftover hl =>
    simp only [Except.ok.injEq, Prod.mk.injEq] at h
    exact ⟨leftover, by rw [hl, h.1], h.2.symm⟩
  next e hl => exact absurd h (by simp)

/-! ## Characterisation of `refresh`, `__getattr__` and `keys` -/

theorem contains_eq_true_iff {l : List String} {a : String} :
    l.contains a = true ↔ a ∈ l := by
  simp

theorem not_mem_of_contains_eq_false {l : List String} {a : String}
    (h : l.contains a = false) : a ∉ l := fun hm => by
  rw [contains_eq_true_iff.mpr hm] at h
  exact Bool.noConfusion h

theorem ensure_loaded_loaded {fuel : Nat} {S : Server} {p : LazyObject}
    (attrib : String) (h : p.loaded = true) :
    p.ensure_loaded fuel S attrib = (.ok p, []) := by
  simp [LazyObject.ensure_loaded, h]

theorem refresh_ok {fuel : Nat} {S : Server} {p p' : LazyObject}
    {log : List String} {u : String}
    (hu : p.urlv = .jstr u) (h : p.refresh fuel S = (.ok p', log)) :
    log = [u] ∧ p'.kind = p.kind ∧ p'.urlv = p.urlv ∧ p'.loaded = true ∧
    ∃ leftover,
      loadLoop (wrapF fuel) p.kind (PARAMS p.kind) (S u) p.data
        = .ok (p'.data, leftover) ∧
      p'.attribs = leftover.foldl (fun acc kv => setKey acc kv.1 kv.2) p.attribs := by
  unfold LazyObject.refresh at h
  split at h
  next u' hequ =>
    rw [hu] at hequ
    cases hequ
    split at h
    next d a hl =>
      simp only [Prod.mk.injEq, Except.ok.injEq] at h
      obtain ⟨hp', hlog⟩ := h
      subst hp'
      obtain ⟨leftover, hl', ha⟩ := loadParamsW_ok hl
      exact ⟨hlog.symm, rfl, rfl, rfl, leftover, by rw [hu]; exact hl', ha⟩
    next e hl => exact absurd h (by simp)
  next hne => exact absurd h (by simp)

theorem refresh_snd {fuel : Nat} {S : Server} {p : LazyObject} {u : String}
    (hu : p.urlv = .jstr u) : (p.refresh fuel S).2 = [u] := by
  unfold LazyObject.refresh
  split
  next u' hequ =>
    rw [hu] at hequ
    cases hequ
    split <;> rfl
  next hne => exact absurd hu (by simp_all)

theorem refresh_data_param {fuel : Nat} {S : Server} {p p' : LazyObject}
    {log : List String} {u q : String} {v : JVal}
    (hu : p.urlv = .jstr u) (h : p.refresh fuel S = (.ok p', log))
    (hnd : (keysOf (S u)).Nodup) (hq : q ∈ PARAMS p.kind)
    (hv : lookupS (S u) q = some v) :
    ∃ pv, wrapF fuel p.kind q v = .ok pv ∧ lookupS p'.data q = some pv := by
  obtain ⟨-, -, -, -, leftover, hl, -⟩ := refresh_ok hu h
  exact loadLoop_wrap_ok hl hnd hq hv

theorem refresh_data_other {fuel : Nat} {S : Server} {p p' : LazyObject}
    {log : List String} {u q : String}
    (hu : p.urlv = .jstr u) (h : p.refresh fuel S = (.ok p', log))
    (hq : q ∉ PARAMS p.kind ∨ lookupS (S u) q = none) :
    lookupS p'.data q = lookupS p.data q := by
  obtain ⟨-, -, -, -, leftover, hl, -⟩ := refresh_ok hu h
  exact loadLoop_lookup_preserved hl hq

theorem refresh_attribs_new {fuel : Nat} {S : Server} {p p' : LazyObject}
    {log : List String} {u q : String} {v : JVal}
    (hu : p.urlv = .jstr u) (h : p.refresh fuel S = (.ok p', log))
    (hnd : (keysOf (S u)).Nodup) (hq : q ∉ PARAMS p.kind)
    (hv : lookupS (S u) q = some v) :
    lookupS p'.attribs q = some v := by
  obtain ⟨-, -, -, -, leftover, hl, ha⟩ := refresh_ok hu h
  have h1 : lookupS leftover q = some v := by
    rw [loadLoop_leftover_not_param hl hq]; exact hv
  have hnd' : (keysOf leftover).Nodup :=
    ((loadLoop_leftover_sublist hl).map Prod.fst).nodup hnd
  rw [ha, lookupS_foldl_setKey _ _ _ hnd', h1]
  rfl

theorem getattr_not_param {fuel : Nat} {S : Server} {p : LazyObject}
    {name : String} (h : (PARAMS p.kind).contains name = false) :
    p.getattr fuel S name = ((.error (.attributeError name), p), []) := by
  have hmem : name ∉ PARAMS p.kind := fun hm => by
    rw [contains_eq_true_iff.mpr hm] at h
    exact absurd h (by simp)
  simp [LazyObject.getattr, hmem]

theorem getattr_cached {fuel : Nat} {S : Server} {p : LazyObject}
    {name : String} {v : PVal} (hc : (PARAMS p.kind).contains name = true)
    (hv : lookupS p.data name = some v) :
    p.getattr fuel S name = ((.ok v, p), []) := by
  simp [LazyObject.getattr, contains_eq_true_iff.mp hc, hv]

theorem getattr_snd_missing {fuel : Nat} {S : Server} {p : LazyObject}
    {name u : String} (hc : (PARAMS p.kind).contains name = true)
    (hm : lookupS p.data name = none) (hu : p.urlv = .jstr u) :
    (p.getattr fuel S name).2 = [u] := by
  have hlog := @refresh_snd fuel S p u hu
  simp only [LazyObject.getattr, hc, hm, Bool.true_eq_false, if_false,
    contains_eq_true_iff.mp hc]
  cases hr : p.refresh fuel S with
  | mk res log =>
      rw [hr] at hlog
      simp only at hlog
      cases res with
      | ok p' => cases hl : lookupS p'.data name <;> simp [hl, hlog]
      | error e => simp [hlog]

theorem getattr_optional_missing {fuel : Nat} {S : Server} {p p' : LazyObject}
    {log : List String} {name u : String}
    (hc : (PARAMS p.kind).contains name = true)
    (hm : lookupS p.data name = none) (hu : p.urlv = .jstr u)
    (hmiss : lookupS (S u) name = none)
    (hr : p.refresh fuel S = (.ok p', log)) :
    p.getattr fuel S name = ((.error (.attributeError name), p'), [u]) := by
  have hlog : log = [u] := (refresh_ok hu hr).1
  have hdata : lookupS p'.data name = none :=
    (refresh_data_other hu hr (Or.inr hmiss)).trans hm
  simp [LazyObject.getattr, contains_eq_true_iff.mp hc, hm, hr, hdata, hlog]

theorem keys_no_refresh {fuel : Nat} {S : Server} {p : LazyObject}
    (h : 1 < p.data.length) :
    p.keys fuel S = (.ok (LazyObject.keysList p, p), []) := by
  unfold LazyObject.keys
  rw [if_neg (by omega)]

theorem keys_refresh {fuel : Nat} {S : Server} {p p' : LazyObject}
    {log : List String} (h : p.data.length ≤ 1)
    (hr : p.refresh fuel S = (.ok p', log)) :
    p.keys fuel S = (.ok (LazyObject.keysList p', p'), log) := by
  simp [LazyObject.keys, h, hr]

/-! ## Characterisation of construction and nested wrapping -/

theorem wrapBody_url (rec : Kind → String → JVal → Except PyErr PVal)
    (k : Kind) (v : JVal) : wrapBody rec k "url" v = .ok (.raw v) := by
  cases k <;> rfl

theorem mapped_kind_url {k : Kind} {f : String} {k' : Kind}
    (hm : MAPPINGS k f = some k') : (PARAMS k').contains "url" = true := by
  cases k with
  | language => exact absurd hm (by simp [MAPPINGS])
  | languageStats => exact absurd hm (by simp [MAPPINGS])
  | projectRepository => exact absurd hm (by simp [MAPPINGS])
  | repository => exact absurd hm (by simp [MAPPINGS])
  | statistics => exact absurd hm (by simp [MAPPINGS])
  | translationStatistics => exact absurd hm (by simp [MAPPINGS])
  | project =>
      simp only [MAPPINGS] at hm
      split at hm
      · simp only [Option.some.injEq] at hm; subst hm; rfl
      · exact absurd hm (by simp)
  | component =>
      simp only [MAPPINGS] at hm
      split at hm
      · simp only [Option.some.injEq] at hm; subst hm; rfl
      · split at hm
        · simp only [Option.some.injEq] at hm; subst hm; rfl
        · exact absurd hm (by simp)
  | translation =>
      simp only [MAPPINGS] at hm
      split at hm
      · simp only [Option.some.injEq] at hm; subst hm; rfl
      · split at hm
        · simp only [Option.some.injEq] at hm; subst hm; rfl
        · exact absurd hm (by simp)
  | change =>
      simp only [MAPPINGS] at hm
      split at hm
      · simp only [Option.some.injEq] at hm; subst hm; rfl
      · split at hm
        · simp only [Option.some.injEq] at hm; subst hm; rfl
        · exact absurd hm (by simp)
  | unit =>
      simp only [MAPPINGS] at hm
      split at hm
      · simp only [Option.some.injEq] at hm; subst hm; rfl
      · exact absurd hm (by simp)

theorem initW_ok {w : Kind → String → JVal → Except PyErr PVal} {k : Kind}
    {uv : JVal} {kwargs : Obj} {p : LazyObject}
    (h : initW w k uv kwargs = .ok p) (hnd : (keysOf kwargs).Nodup) :
    p.kind = k ∧ p.urlv = uv ∧ p.loaded = false ∧
    (∀ q v, q ≠ "url" → q ∈ PARAMS k → lookupS kwargs q = some v →
        ∃ pv, w k q v = .ok pv ∧ lookupS p.data q = some pv) ∧
    (∀ q, q ≠ "url" → (q ∉ PARAMS k ∨ lookupS kwargs q = none) →
        lookupS p.data q = none) ∧
    ((PARAMS k).contains "url" = true →
        ∃ pv, w k "url" uv = .ok pv ∧ lookupS p.data "url" = some pv) := by
  unfold initW at h
  split at h
  next d1 a1 hl1 =>
    split at h
    next d2 a2 hl2 =>
      simp only [Except.ok.injEq] at h
      subst h
      obtain ⟨left1, hloop1, -⟩ := loadParamsW_ok hl1
      obtain ⟨left2, hloop2, -⟩ := loadParamsW_ok hl2
      have hsingle : ∀ q : String, q ≠ "url" → lookupS [("url", uv)] q = none := by
        intro q hq
        simp [lookupS, Ne.symm hq]
      refine ⟨rfl, rfl, rfl, ?_, ?_, ?_⟩
      · intro q v hq hqp hv
        obtain ⟨pv, hw, hd1⟩ := loadLoop_wrap_ok hloop1 hnd hqp hv
        refine ⟨pv, hw, ?_⟩
        show lookupS d2 q = some pv
        rw [loadLoop_lookup_preserved hloop2 (Or.inr (hsingle q hq))]
        exact hd1
      · intro q hq hcase
        show lookupS d2 q = none
        rw [loadLoop_lookup_preserved hloop2 (Or.inr (hsingle q hq)),
          loadLoop_lookup_preserved hloop1 hcase]
        rfl
      · intro hcu
        have hvurl : lookupS [("url", uv)] "url" = some uv := by simp [lookupS]
        obtain ⟨pv, hw, hd2⟩ := loadLoop_wrap_ok hloop2 (by simp [keysOf])
          (contains_eq_true_iff.mp hcu) hvurl
        exact ⟨pv, hw, hd2⟩
    next e hl2 => exact absurd h (by simp)
  next e hl1 => exact absurd h (by simp)

theorem wrap_str_ok {fuel : Nat} {k k' : Kind} {f s : String} {E : LazyObject}
    (hm : MAPPINGS k f = some k')
    (h : wrapF fuel k f (.jstr s) = .ok (.nested E)) :
    ∃ n, fuel = n + 1 ∧ initW (wrapF n) k' (.jstr s) [] = .ok E := by
  cases fuel with
  | zero => exact absurd h (by simp [wrapF])
  | succ n =>
      refine ⟨n, rfl, ?_⟩
      simp only [wrapF, wrapBody, hm] at h
      cases hi : initW (wrapF n) k' (.jstr s) [] with
      | ok E' =>
          rw [hi] at h
          simp only [Except.map, Except.ok.injEq, PVal.nested.injEq] at h
          rw [h]
      | error e => rw [hi] at h; exact absurd h (by simp [Except.map])

theorem wrap_obj_ok {fuel : Nat} {k k' : Kind} {f : String} {o : Obj}
    {uv : JVal} {E : LazyObject}
    (hm : MAPPINGS k f = some k') (hu : lookupS o "url" = some uv)
    (h : wrapF fuel k f (.jobj o) = .ok (.nested E)) :
    ∃ n, fuel = n + 1 ∧ initW (wrapF n) k' uv (eraseKey o "url") = .ok E := by
  cases fuel with
  | zero => exact absurd h (by simp [wrapF])
  | succ n =>
      refine ⟨n, rfl, ?_⟩
      simp only [wrapF, wrapBody, hm, hu] at h
      cases hi : initW (wrapF n) k' uv (eraseKey o "url") with
      | ok E' =>
          rw [hi] at h
          simp only [Except.map, Except.ok.injEq, PVal.nested.injEq] at h
          rw [h]
      | error e => rw [hi] at h; exact absurd h (by simp [Except.map])

theorem wrapF_url_raw {n : Nat} {k : Kind} {uv : JVal} {pv : PVal}
    (h : wrapF n k "url" uv = .ok pv) : pv = .raw uv := by
  cases n with
  | zero => exact absurd h (by simp [wrapF])
  | succ m =>
      rw [wrapF, wrapBody_url] at h
      simp only [Except.ok.injEq] at h
      rw [h]

/-! ## The claims -/

/-- **C7** (confirmed): for every kind with a nested-field mapping,
setting a mapped field from a bare URL string constructs an *empty*
nested proxy of the mapped kind pointed at that URL (its `_data` holds
only the url), while setting it from an inline structured object
constructs a fully-populated nested proxy; given equivalent content (the
inline object carries the URL under `url`, and the server returns exactly
that object at the URL), forcing a load on both resolves them to proxies
with identical visible field values.  The statement quantifies over all
kinds and contents, so it applies recursively to the nested proxy's own
mapped fields, which run through the same `_load_params` wrapping. -/
theorem wlcC7_nested_equiv
    {fuelE fuelI fr : Nat} {S : Server} {k k' : Kind} {f u : String} {o : Obj}
    {E0 I0 E1 I1 : LazyObject} {logE logI : List String}
    (hm : MAPPINGS k f = some k')
    (hnd : (keysOf o).Nodup)
    (hu : lookupS o "url" = some (.jstr u))
    (hS : S u = o)
    (hE0 : wrapF fuelE k f (.jstr u) = .ok (.nested E0))
    (hI0 : wrapF fuelI k f (.jobj o) = .ok (.nested I0))
    (hE1 : E0.refresh fr S = (.ok E1, logE))
    (hI1 : I0.refresh fr S = (.ok I1, logI)) :
    E0.kind = k' ∧ I0.kind = k' ∧ E0.urlv = .jstr u ∧ I0.urlv = .jstr u ∧
    E0.loaded = false ∧ I0.loaded = false ∧
    (∀ q, q ≠ "url" → lookupS E0.data q = none) ∧
    lookupS E0.data "url" = some (.raw (.jstr u)) ∧
    logE = [u] ∧ logI = [u] ∧
    (∀ q, lookupS E1.data q = lookupS I1.data q) := by
  obtain ⟨nE, rfl, hIE⟩ := wrap_str_ok hm hE0
  obtain ⟨nI, rfl, hII⟩ := wrap_obj_ok hm hu hI0
  obtain ⟨hEk, hEu, hEl, hEparam, hEnone, hEurl⟩ :=
    initW_ok hIE (by simp [keysOf])
  obtain ⟨hIk, hIu, hIl, hIparam, hInone, hIurl⟩ :=
    initW_ok hII (nodup_keysOf_eraseKey hnd)
  have hcu : (PARAMS k').contains "url" = true := mapped_kind_url hm
  obtain ⟨pvE, hwE, hEdurl⟩ := hEurl hcu
  have hpvE := wrapF_url_raw hwE
  subst hpvE
  have hE0none : ∀ q, q ≠ "url" → lookupS E0.data q = none := fun q hq =>
    hEnone q hq (Or.inr rfl)
  have hlogE : logE = [u] := (refresh_ok hEu hE1).1
  have hlogI : logI = [u] := (refresh_ok hIu hI1).1
  refine ⟨hEk, hIk, hEu, hIu, hEl, hIl, hE0none, hEdurl, hlogE, hlogI, ?_⟩
  intro q
  have hndS : (keysOf (S u)).Nodup := by rw [hS]; exact hnd
  by_cases hqPar : q ∈ PARAMS k'
  · cases hqv : lookupS o q with
    | some v =>
        have hvS : lookupS (S u) q = some v := by rw [hS]; exact hqv
        obtain ⟨pv1, hw1, hd1⟩ :=
          refresh_data_param hEu hE1 hndS (by rw [hEk]; exact hqPar) hvS
        obtain ⟨pv2, hw2, hd2⟩ :=
          refresh_data_param hIu hI1 hndS (by rw [hIk]; exact hqPar) hvS
        rw [hEk] at hw1
        rw [hIk] at hw2
        have : pv1 = pv2 := by
          have := hw1.symm.trans hw2
          simpa using this
        rw [hd1, hd2, this]
    | none =>
        have hvS : lookupS (S u) q = none := by rw [hS]; exact hqv
        have h1 := refresh_data_other hEu hE1 (Or.inr hvS)
        have h2 := refresh_data_other hIu hI1 (Or.inr hvS)
        have hqu : q ≠ "url" := fun he => by
          rw [he, hu] at hqv
          exact absurd hqv (by simp)
        rw [h1, h2, hE0none q hqu,
          hInone q hqu (Or.inr (by rw [lookupS_eraseKey_ne _ hqu]; exact hqv))]
  · have h1 := refresh_data_other hEu hE1 (Or.inl (by rw [hEk]; exact hqPar))
    have h2 := refresh_data_other hIu hI1 (Or.inl (by rw [hIk]; exact hqPar))
    have hqu : q ≠ "url" := fun he =>
      hqPar (he ▸ contains_eq_true_iff.mp hcu)
    rw [h1, h2, hE0none q hqu, hInone q hqu (Or.inl hqPar)]

/-- **C1** (corrected): reading a schema field already present in `_data`
performs zero refreshes and reading a missing schema field performs
exactly one — but the latter holds *regardless of the loaded flag*,
because `__getattr__` refreshes unconditionally whenever the field is not
in `_data`: reading an optional field that the server response omitted
fails with `AttributeError` and still performs one refresh on *every*
read.  Only `ensure_loaded` is guarded by `_loaded`. -/
theorem wlcC1_lazy_load {fuel : Nat} {S : Server} {p : LazyObject}
    {name u : String} :
    (∀ v, (PARAMS p.kind).contains name = true → lookupS p.data name = some v →
        p.getattr fuel S name = ((.ok v, p), [])) ∧
    ((PARAMS p.kind).contains name = true → lookupS p.data name = none →
        p.urlv = .jstr u → (p.getattr fuel S name).2 = [u]) ∧
    (∀ p' log, (PARAMS p.kind).contains name = true →
        lookupS p.data name = none → p.urlv = .jstr u →
        lookupS (S u) name = none → p.refresh fuel S = (.ok p', log) →
        p.getattr fuel S name = ((.error (.attributeError name), p'), [u])) ∧
    (∀ attrib, p.loaded = true →
        p.ensure_loaded fuel S attrib = (.ok p, [])) := by
  refine ⟨fun v hc hv => getattr_cached hc hv,
    fun hc hm hu => getattr_snd_missing hc hm hu,
    fun p' log hc hm hu hmiss hr => getattr_optional_missing hc hm hu hmiss hr,
    fun attrib h => ensure_loaded_loaded attrib h⟩

/-- Witness for C1 on a minimal Component proxy against a server that
omits `is_glossary`: the first read of `is_glossary` refreshes once and
fails, a read of a cached field costs nothing, a repeated read of the
omitted optional refreshes again, and `ensure_loaded` on the loaded
proxy is a no-op. -/
theorem wlcC1_lazy_load_witness :
    c1p0.getattr 3 serverNoGlossary "is_glossary"
      = ((.error (.attributeError "is_glossary"), c1p1), ["c"]) ∧
    c1p1.getattr 3 serverNoGlossary "name" = ((.ok (.raw (.jstr "W")), c1p1), []) ∧
    (c1p1.getattr 3 serverNoGlossary "is_glossary").2 = ["c"] ∧
    c1p1.ensure_loaded 3 serverNoGlossary "is_glossary" = (.ok c1p1, []) := by
  refine ⟨(@wlcC1_lazy_load 3 serverNoGlossary c1p0 "is_glossary" "c").2.2.1
      c1p1 ["c"] rfl rfl rfl rfl rfl,
    (@wlcC1_lazy_load 3 serverNoGlossary c1p1 "name" "c").1
      (.raw (.jstr "W")) rfl rfl,
    (@wlcC1_lazy_load 3 serverNoGlossary c1p1 "is_glossary" "c").2.1
      rfl rfl rfl,
    (@wlcC1_lazy_load 3 serverNoGlossary c1p1 "is_glossary" "c").2.2.2
      "is_glossary" rfl⟩

/-- Counterexample to C1 as stated: after the refresh triggered by the
first read of the omitted optional `is_glossary`, the proxy is loaded,
yet a second read of the same field performs one more network refresh
(fetch log `["c"]`, not `[]`) — the loaded flag does not prevent repeated
refreshes in `__getattr__`. -/
theorem wlcC1_counterexample :
    c1p0.getattr 3 serverNoGlossary "is_glossary"
      = ((.error (.attributeError "is_glossary"), c1p1), ["c"]) ∧
    c1p1.loaded = true ∧
    (c1p1.getattr 3 serverNoGlossary "is_glossary").2 = ["c"] ∧
    ["c"] ≠ ([] : List String) :=
  ⟨rfl, rfl, rfl, by simp⟩

/-- **C4** (corrected): `keys()` forces a refresh exactly when `_data`
holds at most one entry (the url), *not* unconditionally; it then yields,
in schema order, precisely the `PARAMS` entries that are non-optional or
present in `_data`. -/
theorem wlcC4_keys {fuel : Nat} {S : Server} {p : LazyObject} :
    (1 < p.data.length → p.keys fuel S = (.ok (LazyObject.keysList p, p), [])) ∧
    (∀ p' log, p.data.length ≤ 1 → p.refresh fuel S = (.ok p', log) →
        p.keys fuel S = (.ok (LazyObject.keysList p', p'), log)) ∧
    (∀ q, q ∈ LazyObject.keysList p ↔
        q ∈ PARAMS p.kind ∧
          (q ∉ OPTIONALS p.kind ∨ (lookupS p.data q).isSome = true)) := by
  refine ⟨fun h => keys_no_refresh h,
    fun p' log h hr => keys_refresh h hr, fun q => ?_⟩
  simp [LazyObject.keysList, List.mem_filter]

/-- Witness for C4: a loaded Component with four known fields yields its
keys without any fetch, while a minimal one-field Component refreshes
once; in both cases the optional fields absent from `_data` are not
yielded while every non-optional field is. -/
theorem wlcC4_keys_witness :
    c1p1.keys 3 serverNoGlossary = (.ok (componentKeysNoOptionals, c1p1), []) ∧
    c1p0.keys 3 serverNoGlossary
      = (.ok (componentKeysNoOptionals, c1p1), ["c"]) ∧
    ("is_glossary" ∈ LazyObject.keysList c1p1 ↔
      ("is_glossary" ∈ PARAMS Kind.component ∧
        ("is_glossary" ∉ OPTIONALS Kind.component ∨
          (lookupS c1p1.data "is_glossary").isSome = true))) := by
  refine ⟨?_, ?_, (@wlcC4_keys 3 serverNoGlossary c1p1).2.2 "is_glossary"⟩
  · exact (@wlcC4_keys 3 serverNoGlossary c1p1).1 (by decide)
  · exact (@wlcC4_keys 3 serverNoGlossary c1p0).2.1 c1p1 ["c"] (by decide) rfl

/-- Counterexample to C4 as stated: `c4p` is an *unloaded* Component
proxy of a kind with optional fields, and the server's response carries
`is_glossary`; yet `keys()` issues zero fetches (it does not force a
load, because two fields are already known) and consequently does not
yield `is_glossary`. -/
theorem wlcC4_counterexample :
    c4p.loaded = false ∧
    lookupS (serverWithGlossary "c") "is_glossary" = some (.jbool true) ∧
    (c4p.keys 3 serverWithGlossary).2 = [] ∧
    (c4p.keys 3 serverWithGlossary).1 = .ok (componentKeysNoOptionals, c4p) ∧
    "is_glossary" ∉ componentKeysNoOptionals :=
  ⟨rfl, rfl, rfl, rfl, by decide⟩

/-- **C6** (confirmed): reading a field name outside the kind's schema
fails with `AttributeError` without any fetch, on loaded and unloaded
proxies alike; a refresh never defines a data field outside the schema
(the lookup of any non-schema name is unchanged), and unrecognised
response entries land in `_attribs` (the extras), not in `_data`. -/
theorem wlcC6_unknown_fields {fuel : Nat} {S : Server} {p : LazyObject}
    {u : String} :
    (∀ name, (PARAMS p.kind).contains name = false →
        p.getattr fuel S name = ((.error (.attributeError name), p), [])) ∧
    (∀ p' log q, p.urlv = .jstr u → p.refresh fuel S = (.ok p', log) →
        (PARAMS p.kind).contains q = false →
        lookupS p'.data q = lookupS p.data q) ∧
    (∀ p' log q v, p.urlv = .jstr u → p.refresh fuel S = (.ok p', log) →
        (keysOf (S u)).Nodup → (PARAMS p.kind).contains q = false →
        lookupS (S u) q = some v → lookupS p'.attribs q = some v) := by
  refine ⟨fun name h => getattr_not_param h, ?_, ?_⟩
  · intro p' log q hu hr hq
    exact refresh_data_other hu hr (Or.inl (not_mem_of_contains_eq_false hq))
  · intro p' log q v hu hr hnd hq hv
    exact refresh_attribs_new hu hr hnd (not_mem_of_contains_eq_false hq) hv

/-- Witness for C6: `invalid_attribute` fails with zero fetches both
before (`c1p0`) and after (`c1p1`) the load; the refresh taking `c1p0`
to `c1p1` leaves the non-schema name `repository_url` undefined in
`_data` and stores it in `_attribs`. -/
theorem wlcC6_unknown_fields_witness :
    c1p0.getattr 3 serverNoGlossary "invalid_attribute"
      = ((.error (.attributeError "invalid_attribute"), c1p0), []) ∧
    c1p1.getattr 3 serverNoGlossary "invalid_attribute"
      = ((.error (.attributeError "invalid_attribute"), c1p1), []) ∧
    lookupS c1p1.data "repository_url" = lookupS c1p0.data "repository_url" ∧
    lookupS c1p1.attribs "repository_url" = some (.jstr "r") := by
  refine ⟨(@wlcC6_unknown_fields 3 serverNoGlossary c1p0 "c").1
      "invalid_attribute" rfl,
    (@wlcC6_unknown_fields 3 serverNoGlossary c1p1 "c").1
      "invalid_attribute" rfl,
    (@wlcC6_unknown_fields 3 serverNoGlossary c1p0 "c").2.1
      c1p1 ["c"] "repository_url" rfl rfl rfl,
    (@wlcC6_unknown_fields 3 serverNoGlossary c1p0 "c").2.2
      c1p1 ["c"] "repository_url" (.jstr "r") rfl rfl (by decide) rfl rfl⟩

/-- Witness for C7 at a concrete recursive instance: a Translation's
`component` field given as the URL `"C"` versus given inline as
`componentInline` (whose own `project` field is again a bare URL). -/
theorem wlcC7_nested_equiv_witness :
    lookupS c7E1.data "project" = lookupS c7I1.data "project" ∧
    lookupS c7E1.data "name" = lookupS c7I1.data "name" ∧
    lookupS c7E1.data "is_glossary" = lookupS c7I1.data "is_glossary" ∧
    lookupS c7E0.data "name" = none ∧
    lookupS c7E0.data "url" = some (.raw (.jstr "C")) := by
  have h := @wlcC7_nested_equiv 3 3 3 serverInline .translation .component
    "component" "C" componentInline c7E0 c7I0 c7E1 c7I1 ["C"] ["C"]
    rfl (by decide) rfl rfl rfl rfl rfl rfl
  obtain ⟨-, -, -, -, -, -, hnone, hurl, -, -, heq⟩ := h
  exact ⟨heq "project", heq "name", heq "is_glossary",
    hnone "name" (by decide), hurl⟩

/-- **C5** (confirmed): over a finite page chain, `list_factory` yields
exactly the concatenation of each page's parsed `results` in server
order, fetching precisely the chain's pages in order and stopping at the
page whose `next` is null; and consuming the produced sequence twice
re-runs the generator, re-issuing the full fetch sequence. -/
theorem wlcC5_pagination {α : Type} {S : String → Weblate.Page}
    (parser : Obj → α) {start : String} {ps : List String}
    (h : Weblate.Chain S start ps) {fuel : Nat} (hf : ps.length ≤ fuel) :
    Weblate.list_factory S parser fuel (some start)
      = ((ps.map fun q => (S q).results.map parser).flatten, ps) ∧
    Weblate.consume_twice S parser fuel (some start)
      = ((ps.map fun q => (S q).results.map parser).flatten
            ++ (ps.map fun q => (S q).results.map parser).flatten,
         ps ++ ps) := by
  have main : Weblate.list_factory S parser fuel (some start)
      = ((ps.map fun q => (S q).results.map parser).flatten, ps) := by
    induction h generalizing fuel with
    | last hnext =>
        rename_i p
        cases fuel with
        | zero => simp at hf
        | succ f =>
            simp [Weblate.list_factory, hnext]
    | more hnext hchain ih =>
        rename_i p q rest
        cases fuel with
        | zero => simp at hf
        | succ f =>
            have hf' : rest.length ≤ f := by
              simpa using hf
            simp [Weblate.list_factory, hnext, ih hf']
  exact ⟨main, by simp [Weblate.consume_twice, main]⟩

/-- Witness for C5 on the synthetic three-page listing `threePages`,
parsed with the Project constructor: the items are the four wrapped
results in order, the fetch log is `["p1", "p2", "p3"]`, and a second
consumption doubles both. -/
theorem wlcC5_pagination_witness :
    Weblate.list_factory threePages (mkFromObj 2 .project) 3 (some "p1")
      = ([.ok (.mk .project (.jstr "u1") [("url", .raw (.jstr "u1"))] [] false),
          .ok (.mk .project (.jstr "u2") [("url", .raw (.jstr "u2"))] [] false),
          .ok (.mk .project (.jstr "u3") [("url", .raw (.jstr "u3"))] [] false),
          .ok (.mk .project (.jstr "u4") [("url", .raw (.jstr "u4"))] [] false)],
         ["p1", "p2", "p3"]) ∧
    (Weblate.consume_twice threePages (mkFromObj 2 .project) 3 (some "p1")).2
      = ["p1", "p2", "p3", "p1", "p2", "p3"] := by
  have hch : Weblate.Chain threePages "p1" ["p1", "p2", "p3"] :=
    .more rfl (.more rfl (.last rfl))
  have h := @wlcC5_pagination (Except PyErr LazyObject) threePages
    (mkFromObj 2 .project) "p1" ["p1", "p2", "p3"] hch 3 (by decide)
  exact ⟨h.1, by rw [h.2]; rfl⟩

/-- **C2** (corrected): certificate verification is *performed* iff the
scheme is `https` and the netloc does not start with `"127.0.0.1"`;
equivalently it is skipped iff the scheme is not `https` or the netloc
starts with the loopback prefix.  In particular `https://127.0.0.1/...`
is not verified and `https://example.com/...` is — but a plain-`http`
URL also gets `verify=False`, contrary to the claim. -/
theorem wlcC2_tls (path s n : String) (h : pyUrlparse path = (s, n)) :
    Weblate.should_verify_ssl path = true ↔
      s = "https" ∧ startsWithS n LOCALHOST_NETLOC = false := by
  unfold Weblate.should_verify_ssl
  rw [h]
  simp [Bool.and_eq_true, Bool.not_eq_true']

/-- Witness for C2 at the three URLs named by the amended claim. -/
theorem wlcC2_tls_witness :
    Weblate.should_verify_ssl "https://127.0.0.1:8000/api/" = false ∧
    Weblate.should_verify_ssl "https://example.com/api/" = true ∧
    Weblate.should_verify_ssl "http://example.com/api/" = false := by
  have h1 := wlcC2_tls "https://127.0.0.1:8000/api/" "https" "127.0.0.1:8000" rfl
  have h2 := wlcC2_tls "https://example.com/api/" "https" "example.com" rfl
  have h3 := wlcC2_tls "http://example.com/api/" "http" "example.com" rfl
  refine ⟨?_, h2.mpr ⟨rfl, rfl⟩, ?_⟩
  · cases hb : Weblate.should_verify_ssl "https://127.0.0.1:8000/api/" with
    | false => rfl
    | true => exact absurd (h1.mp hb).2 (by decide)
  · cases hb : Weblate.should_verify_ssl "http://example.com/api/" with
    | false => rfl
    | true => exact absurd (h3.mp hb).1 (by decide)

/-- Counterexample to C2 as stated: for `http://example.com/api/` the
code skips verification (`verify=False`), although the spec's
characterisation — skip iff https *and* loopback host — does not hold of
this URL (its scheme is not `https`). -/
theorem wlcC2_counterexample :
    Weblate.should_verify_ssl "http://example.com/api/" = false ∧
    specSkipVerification "http://example.com/api/" = false :=
  ⟨rfl, rfl⟩

/-- **C10** (confirmed): the loopback test is a string prefix match on
the netloc: every `https` URL whose netloc merely starts with
`"127.0.0.1"` has certificate verification disabled. -/
theorem wlcC10_prefix_match (path : String)
    (h1 : (pyUrlparse path).1 = "https")
    (h2 : startsWithS (pyUrlparse path).2 LOCALHOST_NETLOC = true) :
    Weblate.should_verify_ssl path = false := by
  simp only [Weblate.should_verify_ssl]
  rw [h1, h2]
  rfl

/-- Witness for C10 at the three netlocs named by the claim:
`127.0.0.100`, `127.0.0.1.example.com` and `127.0.0.1:8443`. -/
theorem wlcC10_prefix_match_witness :
    Weblate.should_verify_ssl "https://127.0.0.100/api/" = false ∧
    Weblate.should_verify_ssl "https://127.0.0.1.example.com/api/" = false ∧
    Weblate.should_verify_ssl "https://127.0.0.1:8443/api/" = false :=
  ⟨wlcC10_prefix_match _ rfl rfl, wlcC10_prefix_match _ rfl rfl,
    wlcC10_prefix_match _ rfl rfl⟩

/-- **C8** (corrected): `get_object` first tries to parse the *raw* path
as a Python integer (which tolerates surrounding whitespace and a sign
but no slashes) and only then dispatches on the number of segments of
the slash-stripped path: 3 → translation, 2 → component, 1 → project,
anything else `ValueError`.  Because the numeric check precedes the
stripping, a path like `"123/"` resolves as a *project*, not a unit,
even though its stripped form is a single numeric token. -/
theorem wlcC8_resolve (path : String) :
    (pyIntParsable path = true → Weblate.get_object path = .unitR path) ∧
    (pyIntParsable path = false →
      ((splitChar (stripChar path '/') '/').length = 3 →
          Weblate.get_object path = .translationR path) ∧
      ((splitChar (stripChar path '/') '/').length = 2 →
          Weblate.get_object path = .componentR path) ∧
      ((splitChar (stripChar path '/') '/').length = 1 →
          Weblate.get_object path = .projectR path) ∧
      ((splitChar (stripChar path '/') '/').length ≠ 1 →
        (splitChar (stripChar path '/') '/').length ≠ 2 →
        (splitChar (stripChar path '/') '/').length ≠ 3 →
          Weblate.get_object path = .valueError path)) := by
  refine ⟨fun h1 => by simp [Weblate.get_object, h1],
    fun h0 => ⟨fun h3 => by simp [Weblate.get_object, h0, h3],
      fun h2 => by simp [Weblate.get_object, h0, h2],
      fun h1 => by simp [Weblate.get_object, h0, h1],
      fun hn1 hn2 hn3 => by simp [Weblate.get_object, h0, hn1, hn2, hn3]⟩⟩

/-- Witness for C8: a numeric token resolves as a unit, two segments as a
component, three as a translation, four fail, and the amended
`"123/"` case resolves as a project. -/
theorem wlcC8_resolve_witness :
    Weblate.get_object "123" = .unitR "123" ∧
    Weblate.get_object "proj/comp" = .componentR "proj/comp" ∧
    Weblate.get_object "p/c/t" = .translationR "p/c/t" ∧
    Weblate.get_object "a/b/c/d" = .valueError "a/b/c/d" ∧
    Weblate.get_object "123/" = .projectR "123/" :=
  ⟨(wlcC8_resolve "123").1 rfl,
    ((wlcC8_resolve "proj/comp").2 rfl).2.1 rfl,
    ((wlcC8_resolve "p/c/t").2 rfl).1 rfl,
    ((wlcC8_resolve "a/b/c/d").2 rfl).2.2.2 (by decide) (by decide) (by decide),
    ((wlcC8_resolve "123/").2 rfl).2.2.1 rfl⟩

/-- Counterexample to C8 as stated: for the path `"123/"`, stripping the
slashes and splitting yields the single numeric token `"123"`, so the
claim requires a Unit reference; but `int("123/")` fails, so the code
returns a Project reference instead. -/
theorem wlcC8_counterexample :
    stripChar "123/" '/' = "123" ∧
    splitChar (stripChar "123/" '/') '/' = ["123"] ∧
    pyIntParsable "123" = true ∧
    Weblate.get_object "123/" = .projectR "123/" ∧
    Weblate.get_object "123/" ≠ .unitR "123/" :=
  ⟨rfl, rfl, rfl, rfl, by decide⟩

/-- **C9** (confirmed): `create_component` validates the five required
fields before any network call: when one is missing (after the
`docfile`/`zipfile` pops) the result is the `WeblateException` message
for the first missing key and the request log is empty; when all are
present, exactly one POST goes to `projects/<project>/components/` with
the popped file entries as the multipart payload and the remaining
kwargs as the body. -/
theorem wlcC9_create_component (project : String) (kwargs : Obj) :
    (∀ key, Weblate.required_keys.find?
          (fun key => (lookupS (Weblate.popped_kwargs kwargs) key).isNone)
        = some key →
      Weblate.create_component project kwargs
          = (.error (key ++ " is required."), []) ∧
        key ∈ Weblate.required_keys ∧
        lookupS (Weblate.popped_kwargs kwargs) key = none) ∧
    ((∀ key, key ∈ Weblate.required_keys →
        (lookupS (Weblate.popped_kwargs kwargs) key).isSome = true) →
      Weblate.create_component project kwargs
        = (.ok ⟨"projects/" ++ project ++ "/components/",
            Weblate.popped_files kwargs, Weblate.popped_kwargs kwargs⟩,
           [⟨"projects/" ++ project ++ "/components/",
             Weblate.popped_files kwargs, Weblate.popped_kwargs kwargs⟩])) := by
  constructor
  · intro key hfind
    refine ⟨by simp [Weblate.create_component, hfind],
      List.mem_of_find?_eq_some hfind, ?_⟩
    have hp := List.find?_some hfind
    simpa using hp
  · intro hall
    have hnone : Weblate.required_keys.find?
        (fun key => (lookupS (Weblate.popped_kwargs kwargs) key).isNone)
          = none := by
      rw [List.find?_eq_none]
      intro x hx
      have hs := hall x hx
      cases hc : lookupS (Weblate.popped_kwargs kwargs) x with
      | none => rw [hc] at hs; exact absurd hs (by simp)
      | some v => simp [hc]
    simp [Weblate.create_component, hnone]

/-- Witness for C9: without `repo` the call fails fast with zero
requests issued; with all required fields present the docfile is
separated into the multipart files and everything else forms the body
of the single POST. -/
theorem wlcC9_create_component_witness :
    Weblate.create_component "hello" c9missing
      = (.error "repo is required.", []) ∧
    Weblate.create_component "hello" c9full
      = (.ok ⟨"projects/hello/components/",
          [("docfile", .jstr "POT")],
          [("name", .jstr "c"), ("slug", .jstr "c"), ("file_format", .jstr "po"),
           ("filemask", .jstr "po/w/*.po"), ("repo", .jstr "local:")]⟩,
         [⟨"projects/hello/components/",
           [("docfile", .jstr "POT")],
           [("name", .jstr "c"), ("slug", .jstr "c"), ("file_format", .jstr "po"),
            ("filemask", .jstr "po/w/*.po"), ("repo", .jstr "local:")]⟩]) := by
  refine ⟨((wlcC9_create_component "hello" c9missing).1 "repo" rfl).1, ?_⟩
  exact (wlcC9_create_component "hello" c9full).2 (by decide)

/-- **C3** (code bug in `config.py`): a bare `key` stored directly in
the main configuration section is silently used as the API credential —
`get_url_key` returns it and no error is possible on this path — while
the repository's own `test_config.py` (`test_deprecated_raises_error`)
requires loading such a configuration to raise `WLCConfigurationError`,
a class `config.py` does not even define.  The first conjunct evaluates
the code at the failing input; the second shows the intended `[keys]`
route. -/
theorem wlcC3_bare_key_accepted :
    (WeblateConfig.set_defaults.read
        [("url", "https://example.com/api/"), ("key", "s3cr3t")] []).get_url_key
      = ("https://example.com/api/", "s3cr3t") ∧
    (WeblateConfig.set_defaults.read
        [("url", "https://example.com/api/")]
        [("https://example.com/api/", "keyfile")]).get_url_key
      = ("https://example.com/api/", "keyfile") :=
  ⟨rfl, rfl⟩

end Wlc
